import Mathlib

/-!
Shallow embedding of gamescope's input-method handler (`src/ime.cpp`).

Bytes and codepoints are modelled as `Nat`; a C null-terminated buffer is a
`List Nat` of its bytes (the terminator is the first `0` byte; positions past
the end of the list read as `0`, matching `List.getD`).  External collaborators
(libxkbcommon's utf32-to-keysym table and keysym-name lookup, the keymap
compiler, the currently installed keymap of the virtual keyboard device, and
the seat's current modifier state) are parameters gathered in `ImeEnv`.
Seat mutations are recorded as a trace of `SeatEvent`s.
-/

namespace Ime

/-- Constant `UTF8_INVALID` from ime.cpp: the replacement scalar value U+FFFD. -/
def UTF8_INVALID : Nat := 0xFFFD

/-- Constant `XKB_KEY_NoSymbol`. -/
def XKB_KEY_NoSymbol : Nat := 0

/-- Constant `XKB_KEYCODE_INVALID` (0xFFFFFFFF). -/
def XKB_KEYCODE_INVALID : Nat := 0xFFFFFFFF

/-- Constant `XKB_KEY_EuroSign` (0x20ac). -/
def XKB_KEY_EuroSign : Nat := 0x20ac

/-- Function `utf8_size` from ime.cpp: length of the UTF-8 unit announced by the
leading byte, `0` for the terminator and for unrecognized leading bytes. -/
def utf8_size (u8 : Nat) : Nat :=
  if u8 = 0 then 0
  else if u8 &&& 0x80 = 0 then 1
  else if u8 &&& 0xE0 = 0xC0 then 2
  else if u8 &&& 0xF0 = 0xE0 then 3
  else if u8 &&& 0xF8 = 0xF0 then 4
  else 0

/-- The `masks[]` table of `utf8_decode`, indexed by unit size. -/
def utf8_mask : Nat → Nat
  | 1 => 0x7F
  | 2 => 0x1F
  | 3 => 0x0F
  | 4 => 0x07
  | _ => 0

/-- Function `utf8_decode` from ime.cpp, acting on the bytes from the cursor onward:
returns the decoded scalar value and the number of bytes the cursor advances.
An unrecognized leading byte yields `UTF8_INVALID` and advances one byte;
otherwise the announced number of bytes is consumed with 6-bit
mask-and-shift reconstruction and no continuation-byte validation. -/
def utf8_decode (buf : List Nat) : Nat × Nat :=
  let b0 := buf.getD 0 0
  let size := utf8_size b0
  if size = 0 then (UTF8_INVALID, 1)
  else
    ((List.range (size - 1)).foldl
      (fun acc i => (acc <<< 6) ||| (buf.getD (i + 1) 0 &&& 0x3F))
      (b0 &&& utf8_mask size), size)

theorem utf8_decode_consumed_pos (buf : List Nat) : 1 ≤ (utf8_decode buf).2 := by
  dsimp only [utf8_decode]
  split
  · exact le_refl 1
  · next h => omega

/-- The decode loop of `type_text` (`while (text[0] != '\0') { utf8_decode }`)
restricted to the scalar values it produces, with an explicit fuel argument:
each iteration consumes at least one byte (`utf8_decode_consumed_pos`), so a
fuel equal to the buffer length never runs out. -/
def decode_string_go (fuel : Nat) (text : List Nat) : List Nat :=
  match fuel with
  | 0 => []
  | fuel + 1 =>
    match text with
    | [] => []
    | b :: rest =>
      if b = 0 then []
      else
        (utf8_decode (b :: rest)).1 ::
          decode_string_go fuel ((b :: rest).drop (utf8_decode (b :: rest)).2)

/-- The scalar values the decode loop of `type_text` produces on a buffer. -/
def decode_string (text : List Nat) : List Nat :=
  decode_string_go text.length text

/-- Any fuel at least the buffer length yields the loop's fixpoint, so
`decode_string` is the loop's exact behavior. -/
theorem decode_string_go_fuel_ge :
    ∀ (fuel fuel' : Nat) (text : List Nat), text.length ≤ fuel → text.length ≤ fuel' →
      decode_string_go fuel text = decode_string_go fuel' text := by
  intro fuel
  induction fuel with
  | zero =>
    intro fuel' text h _
    cases text with
    | nil => cases fuel' <;> rfl
    | cons b rest => simp at h
  | succ fuel ih =>
    intro fuel' text h h'
    cases text with
    | nil => cases fuel' <;> rfl
    | cons b rest =>
      cases fuel' with
      | zero => simp at h'
      | succ fuel' =>
        simp only [decode_string_go]
        by_cases hb : b = 0
        · simp [hb]
        · simp only [hb, if_neg hb]
          have hlen : ((b :: rest).drop (utf8_decode (b :: rest)).2).length ≤ fuel := by
            have := utf8_decode_consumed_pos (b :: rest)
            simp only [List.length_drop, List.length_cons] at *
            omega
          have hlen' : ((b :: rest).drop (utf8_decode (b :: rest)).2).length ≤ fuel' := by
            have := utf8_decode_consumed_pos (b :: rest)
            simp only [List.length_drop, List.length_cons] at *
            omega
          rw [ih fuel' _ hlen hlen']

/-! Keycode catalog and allocator: `allow_keycodes`, `keycode_from_ch`. -/

/-- Evdev keycode constants used by ime.cpp (linux/input-event-codes.h). -/
def KEY_ENTER : Nat := 28
def KEY_BACKSPACE : Nat := 14
def KEY_DELETE : Nat := 111
def KEY_LEFT : Nat := 105
def KEY_RIGHT : Nat := 106
def KEY_LEFTSHIFT : Nat := 42
def KEY_LEFTCTRL : Nat := 29
def KEY_LEFTALT : Nat := 56

/-- Table `allow_keycodes` from ime.cpp: the fixed ordered catalog of keycodes the
emulated keyboard may use (KEY_1..KEY_EQUAL, KEY_Q..KEY_RIGHTBRACE,
KEY_A..KEY_BACKSLASH, KEY_Z..KEY_SLASH, by their evdev values). -/
def allow_keycodes : List Nat :=
  [2, 3, 4, 5, 6, 7, 8, 9, 10, 11, 12, 13,
   16, 17, 18, 19, 20, 21, 22, 23, 24, 25, 26, 27,
   30, 31, 32, 33, 34, 35, 36, 37, 38, 39, 40, 41, 43,
   44, 45, 46, 47, 48, 49, 50, 51, 52, 53]

/-- Constant `allow_keycodes_len` from ime.cpp. -/
def allow_keycodes_len : Nat := allow_keycodes.length

/-- Model of `struct wlserver_input_method_key`: a (keycode, keysym) pair. -/
structure ImeKey where
  keycode : Nat
  keysym : Nat
deriving DecidableEq, Repr

/-- The allocator-relevant state of `struct wlserver_input_method`:
the `keys` deque and the `next_keycode_index` cursor. -/
structure AllocState where
  keys : List ImeKey
  next_keycode_index : Nat
deriving DecidableEq, Repr

/-- Function `keysym_from_ch` from ime.cpp: libxkbcommon's utf32-to-keysym table
(a parameter `xkb`), with the Euro-sign override. -/
def keysym_from_ch (xkb : Nat → Nat) (ch : Nat) : Nat :=
  if ch = 0x20ac then XKB_KEY_EuroSign else xkb ch

/-- The allocation arm of `keycode_from_ch`: evict the front if the deque is
at (or beyond) the catalog length, then draw the next catalog keycode
round-robin and append the new pair. -/
def alloc_new (st : AllocState) (keysym : Nat) : Nat × AllocState :=
  let keys := if allow_keycodes_len ≤ st.keys.length then st.keys.tail else st.keys
  let keycode := allow_keycodes.getD (st.next_keycode_index % allow_keycodes_len) 0
  (keycode, ⟨keys ++ [⟨keycode, keysym⟩], st.next_keycode_index + 1⟩)

/-- Function `keycode_from_ch` from ime.cpp: resolve the scalar to a keysym
(`XKB_KEYCODE_INVALID` if none), reuse the most recent keycode when the
deque's back already holds this keysym, otherwise allocate. -/
def keycode_from_ch (xkb : Nat → Nat) (st : AllocState) (ch : Nat) :
    Nat × AllocState :=
  let keysym := keysym_from_ch xkb ch
  if keysym = XKB_KEY_NoSymbol then (XKB_KEYCODE_INVALID, st)
  else
    match st.keys.getLast? with
    | some k => if k.keysym = keysym then (k.keycode, st) else alloc_new st keysym
    | none => alloc_new st keysym

/-- A sequence of allocator requests (the claim-level `allocate` loop). -/
def run_allocs (xkb : Nat → Nat) (st : AllocState) (chs : List Nat) : AllocState :=
  chs.foldl (fun s ch => (keycode_from_ch xkb s ch).2) st

/-! Action table and keymap synthesis: `actions`, `generate_keymap`. -/

/-- Wire values of `enum gamescope_input_method_action`. -/
def ACTION_NONE : Nat := 0
def ACTION_SUBMIT : Nat := 1
def ACTION_DELETE_LEFT : Nat := 2
def ACTION_DELETE_RIGHT : Nat := 3
def ACTION_MOVE_LEFT : Nat := 4
def ACTION_MOVE_RIGHT : Nat := 5

/-- XKB keysym constants for the action table. -/
def XKB_KEY_Return : Nat := 0xFF0D
def XKB_KEY_BackSpace : Nat := 0xFF08
def XKB_KEY_Delete : Nat := 0xFFFF
def XKB_KEY_Left : Nat := 0xFF51
def XKB_KEY_Right : Nat := 0xFF53

/-- The `actions` map of ime.cpp: action → fixed (keycode, keysym). -/
def actions : List (Nat × ImeKey) :=
  [(ACTION_SUBMIT, ⟨KEY_ENTER, XKB_KEY_Return⟩),
   (ACTION_DELETE_LEFT, ⟨KEY_BACKSPACE, XKB_KEY_BackSpace⟩),
   (ACTION_DELETE_RIGHT, ⟨KEY_DELETE, XKB_KEY_Delete⟩),
   (ACTION_MOVE_LEFT, ⟨KEY_LEFT, XKB_KEY_Left⟩),
   (ACTION_MOVE_RIGHT, ⟨KEY_RIGHT, XKB_KEY_Right⟩)]

/-- The (keycode, keysym) pairs of the action table, in iteration order. -/
def action_keys : List ImeKey := actions.map Prod.snd

/-- Lookup in the `actions` map (`actions.count` plus `actions[action]`). -/
def actions_lookup (a : Nat) : Option ImeKey :=
  (actions.find? (fun p => p.1 = a)).map Prod.snd

/-- One line of the synthesized textual keymap description, structured:
`keycodeBinding kc` stands for the keycodes-section line
`<K kc> = kc + 8;` and `symbolBinding kc name` for the symbols-section line
`key <K kc> { [ name ] };`. -/
inductive KeymapLine where
  | keycodeBinding (keycode : Nat)
  | symbolBinding (keycode : Nat) (name : String)
deriving DecidableEq, Repr

/-- Function `generate_keymap_key` from ime.cpp: look the keysym's name up
(`xkb_keysym_get_name`, a parameter; failure aborts) and render the
symbols-section line for the key. -/
def generate_keymap_key (get_name : Nat → Option String) (k : ImeKey) :
    Option KeymapLine :=
  match get_name k.keysym with
  | none => none
  | some nm => some (.symbolBinding k.keycode nm)

/-- The symbols-section loop of `generate_keymap`: renders one line per key,
aborting the whole synthesis at the first name-lookup failure. -/
def gen_symbol_lines (get_name : Nat → Option String) :
    List ImeKey → Option (List KeymapLine)
  | [] => some []
  | k :: ks =>
    match generate_keymap_key get_name k with
    | none => none
    | some line =>
      match gen_symbol_lines get_name ks with
      | none => none
      | some ls => some (line :: ls)

/-- Function `generate_keymap` from ime.cpp, up to the external compile step: renders
a keycodes-section line and a symbols-section line for every deque entry and
then for every action-table entry; returns `none` when any symbol's name
lookup fails. -/
def generate_keymap_text (get_name : Nat → Option String) (keys : List ImeKey) :
    Option (List KeymapLine) :=
  match gen_symbol_lines get_name (keys ++ action_keys) with
  | none => none
  | some sym_lines =>
    some ((keys ++ action_keys).map (fun k => .keycodeBinding k.keycode) ++ sym_lines)

/-! Seat events and the direct-type search: `try_type_keysym`. -/

/-- Model of `struct wlr_keyboard_modifiers`. -/
structure WlrModifiers where
  depressed : Nat
  latched : Nat
  locked : Nat
  group : Nat
deriving DecidableEq, Repr

/-- Bit values of the modifier masks used by ime.cpp. -/
def WLR_MODIFIER_SHIFT : Nat := 1
def WLR_MODIFIER_CTRL : Nat := 4
def WLR_MODIFIER_ALT : Nat := 8

/-- One observable mutation of the shared seat (or of the IME's emulated
keyboard device), in emission order. -/
inductive SeatEvent where
  | setKeyboardVirtual
  | setKeyboardIme
  | installKeymap (lines : List KeymapLine)
  | notifyModifiers (mods : WlrModifiers)
  | keyPress (keycode : Nat)
  | keyRelease (keycode : Nat)
  | armImeResetTimer (ms : Nat)
  | armManagerResetTimer (ms : Nat)
deriving DecidableEq, Repr

/-- The introspection interface over the virtual keyboard device's currently
installed keymap, as consumed by `try_type_keysym` (libxkbcommon queries).
`get_mods` returns `some mask` exactly when
`xkb_keymap_key_get_mods_for_level` with capacity 1 reports one mask. -/
structure InstalledKeymap where
  min_keycode : Nat
  max_keycode : Nat
  num_layouts : Nat → Nat
  num_levels : Nat → Nat → Nat
  syms : Nat → Nat → Nat → List Nat
  get_mods : Nat → Nat → Nat → Option Nat

/-- The external collaborators of the handler, fixed for a run. -/
structure ImeEnv where
  xkb : Nat → Nat
  get_name : Nat → Option String
  compile_ok : List KeymapLine → Bool
  installed : InstalledKeymap
  seat_mods : Option WlrModifiers

/-- The accepted modifier mask of `try_type_keysym`:
shift, control and alt only. -/
def allowed_mods : Nat := WLR_MODIFIER_SHIFT ||| WLR_MODIFIER_CTRL ||| WLR_MODIFIER_ALT

/-- The triple-nested search loop of `try_type_keysym`: the first
(keycode, mask) in keycode/layout/level enumeration order whose level binds
exactly the requested keysym, has exactly one modifier mask, and whose mask
uses only shift/control/alt. -/
def find_direct (km : InstalledKeymap) (keysym : Nat) : Option (Nat × Nat) :=
  (List.range (km.max_keycode + 1 - km.min_keycode)).findSome? (fun dk =>
    let keycode := km.min_keycode + dk
    (List.range (km.num_layouts keycode)).findSome? (fun layout =>
      (List.range (km.num_levels keycode layout)).findSome? (fun level =>
        match km.syms keycode layout level with
        | [s] =>
          if s = keysym then
            match km.get_mods keycode layout level with
            | some mask =>
              if mask &&& allowed_mods = mask then some (keycode, mask) else none
            | none => none
          else none
        | _ => none)))

/-- The modifier keycodes `try_type_keysym` presses for a required mask, in
its fixed order: left-shift, then left-control, then left-alt. -/
def modifier_keycodes (mask : Nat) : List Nat :=
  (if mask &&& WLR_MODIFIER_SHIFT ≠ 0 then [KEY_LEFTSHIFT] else []) ++
  (if mask &&& WLR_MODIFIER_CTRL ≠ 0 then [KEY_LEFTCTRL] else []) ++
  (if mask &&& WLR_MODIFIER_ALT ≠ 0 then [KEY_LEFTALT] else [])

/-- Function `try_type_keysym` from ime.cpp: search the installed keymap; on a match,
activate the canonical virtual keyboard, set the required modifiers, press
the modifier keys and the target (keycode − 8) in order, release them in
reverse order, and restore the previously captured modifier state.
`none` models the `return false` path (no seat mutation at all). -/
def try_type_keysym (env : ImeEnv) (keysym : Nat) : Option (List SeatEvent) :=
  match find_direct env.installed keysym with
  | none => none
  | some (keycode, mask) =>
    let prev := env.seat_mods.getD ⟨0, 0, 0, 0⟩
    let kcs := modifier_keycodes mask ++ [keycode - 8]
    some ([.setKeyboardVirtual, .notifyModifiers ⟨mask, 0, 0, 0⟩] ++
          kcs.map .keyPress ++ kcs.reverse.map .keyRelease ++
          [.notifyModifiers prev])

/-! Main operations: `type_text` and `perform_action`. -/

/-- The decode-and-allocate loop of `type_text`: walk the byte buffer with
`utf8_decode`, allocate a keycode per scalar, skipping scalars with no
keysym; returns the keycodes in decode order and the final allocator state.
Fueled like `decode_string_go` (one byte or more consumed per iteration). -/
def collect_keycodes_go (xkb : Nat → Nat) (fuel : Nat) (st : AllocState)
    (text : List Nat) : List Nat × AllocState :=
  match fuel with
  | 0 => ([], st)
  | fuel + 1 =>
    match text with
    | [] => ([], st)
    | b :: rest =>
      if b = 0 then ([], st)
      else
        let kc := (keycode_from_ch xkb st (utf8_decode (b :: rest)).1).1
        let st' := (keycode_from_ch xkb st (utf8_decode (b :: rest)).1).2
        let res := collect_keycodes_go xkb fuel st' ((b :: rest).drop (utf8_decode (b :: rest)).2)
        if kc = XKB_KEYCODE_INVALID then res else (kc :: res.1, res.2)

/-- The decode-and-allocate loop of `type_text` on a whole buffer. -/
def collect_keycodes (xkb : Nat → Nat) (st : AllocState) (text : List Nat) :
    List Nat × AllocState :=
  collect_keycodes_go xkb text.length st text

/-- Any fuel at least the buffer length yields the loop's fixpoint, so
`collect_keycodes` is the loop's exact behavior. -/
theorem collect_keycodes_go_fuel_ge (xkb : Nat → Nat) :
    ∀ (fuel fuel' : Nat) (text : List Nat) (st : AllocState),
      text.length ≤ fuel → text.length ≤ fuel' →
      collect_keycodes_go xkb fuel st text = collect_keycodes_go xkb fuel' st text := by
  intro fuel
  induction fuel with
  | zero =>
    intro fuel' text st h _
    cases text with
    | nil => cases fuel' <;> rfl
    | cons b rest => simp at h
  | succ fuel ih =>
    intro fuel' text st h h'
    cases text with
    | nil => cases fuel' <;> rfl
    | cons b rest =>
      cases fuel' with
      | zero => simp at h'
      | succ fuel' =>
        simp only [collect_keycodes_go]
        by_cases hb : b = 0
        · simp [hb]
        · simp only [hb, if_neg hb]
          have hlen : ((b :: rest).drop (utf8_decode (b :: rest)).2).length ≤ fuel := by
            have := utf8_decode_consumed_pos (b :: rest)
            simp only [List.length_drop, List.length_cons] at *
            omega
          have hlen' : ((b :: rest).drop (utf8_decode (b :: rest)).2).length ≤ fuel' := by
            have := utf8_decode_consumed_pos (b :: rest)
            simp only [List.length_drop, List.length_cons] at *
            omega
          rw [ih fuel' _ _ hlen hlen']

/-- The single-byte fast path of `type_text`: when the text is one
recognized single-byte unit followed by the terminator and the allocator
deque is empty, resolve the byte's keysym and attempt direct-typing.
`none` when the guard fails, the keysym is `NoSymbol`, or the search fails. -/
def type_text_direct (env : ImeEnv) (st : AllocState) (text : List Nat) :
    Option (List SeatEvent) :=
  if utf8_size (text.getD 0 0) = 1 ∧ text.getD 1 0 = 0 ∧ st.keys = [] then
    let keysym := keysym_from_ch env.xkb (text.getD 0 0)
    if keysym ≠ XKB_KEY_NoSymbol then try_type_keysym env keysym else none
  else none

/-- Function `type_text` from ime.cpp: try the direct path; otherwise decode and
allocate, synthesize and compile a keymap (aborting on failure), install it
on the emulated device, make that device the seat's keyboard, emit a
press/release pair per keycode, and arm the 100 ms idle-reset timer. -/
def type_text (env : ImeEnv) (st : AllocState) (text : List Nat) :
    List SeatEvent × AllocState :=
  match type_text_direct env st text with
  | some evs => (evs, st)
  | none =>
    let res := collect_keycodes env.xkb st text
    match generate_keymap_text env.get_name res.2.keys with
    | none => ([], res.2)
    | some lines =>
      if env.compile_ok lines then
        ([.installKeymap lines, .setKeyboardIme] ++
         res.1.flatMap (fun kc => [.keyPress kc, .keyRelease kc]) ++
         [.armImeResetTimer 100], res.2)
      else ([], res.2)

/-- Function `perform_action` from ime.cpp: unsupported actions are a no-op; try
direct-typing the action's keysym; otherwise synthesize and compile a keymap
(abort on failure), install it, switch the seat keyboard, and emit one
press/release pair for the action's fixed keycode. -/
def perform_action (env : ImeEnv) (st : AllocState) (action : Nat) :
    List SeatEvent × AllocState :=
  match actions_lookup action with
  | none => ([], st)
  | some key =>
    match try_type_keysym env key.keysym with
    | some evs => (evs, st)
    | none =>
      match generate_keymap_text env.get_name st.keys with
      | none => ([], st)
      | some lines =>
        if env.compile_ok lines then
          ([.installKeymap lines, .setKeyboardIme,
            .keyPress key.keycode, .keyRelease key.keycode], st)
        else ([], st)

/-! Session state machine: `ime_handle_commit` and creation. -/

/-- The protocol-facing state of a `struct wlserver_input_method` session. -/
structure Session where
  serial : Nat
  pending_string : Option (List Nat)
  pending_action : Nat
  alloc : AllocState
deriving DecidableEq, Repr

/-- Function `ime_handle_commit` from ime.cpp: a serial different from the session's
is a complete no-op; on a match, run `type_text` on pending text (if any),
then `perform_action` on the pending action (if any), clear both pending
fields, and arm the manager's 100 ms device-reconciliation timer. -/
def ime_handle_commit (env : ImeEnv) (s : Session) (serial : Nat) :
    List SeatEvent × Session :=
  if serial ≠ s.serial then ([], s)
  else
    let r1 := match s.pending_string with
      | some text => type_text env s.alloc text
      | none => ([], s.alloc)
    let r2 := if s.pending_action ≠ ACTION_NONE
      then perform_action env r1.2 s.pending_action
      else ([], r1.2)
    (r1.1 ++ r2.1 ++ [.armManagerResetTimer 100],
     { serial := s.serial, pending_string := none, pending_action := ACTION_NONE,
       alloc := r2.2 })

/-- Function `ime_handle_set_string`: overwrite the pending text. -/
def ime_handle_set_string (s : Session) (text : List Nat) : Session :=
  { s with pending_string := some text }

/-- Function `ime_handle_set_action`: overwrite the pending action. -/
def ime_handle_set_action (s : Session) (action : Nat) : Session :=
  { s with pending_action := action }

/-- Server-to-client replies of the create request. -/
inductive CreateReply where
  | unavailable
  | done (serial : Nat)
deriving DecidableEq, Repr

/-- Function `manager_handle_create_input_method` from ime.cpp, over the single-slot
registry (`active_input_method`): when a session is already registered, send
`unavailable` and change nothing; otherwise register a fresh session with
serial 1, empty pending state and empty allocator, and send `done(1)`.
The trace component records seat mutations (there are none either way). -/
def manager_handle_create_input_method (active : Option Session) :
    CreateReply × Option Session × List SeatEvent :=
  match active with
  | some s => (.unavailable, some s, [])
  | none =>
    (.done 1,
     some { serial := 1, pending_string := none, pending_action := ACTION_NONE,
            alloc := ⟨[], 0⟩ },
     [])

/-! Concrete instantiations of the external collaborators, used to exercise
the operations on closed inputs. -/

/-- A small installed keymap: keycode 8 binds keysym 0x61 and keycode 9
binds keysym 0xE9, each at one layout/level with an empty modifier mask. -/
def km0 : InstalledKeymap :=
  { min_keycode := 8, max_keycode := 9,
    num_layouts := fun _ => 1, num_levels := fun _ _ => 1,
    syms := fun kc _ _ => if kc = 9 then [0xE9] else [0x61],
    get_mods := fun _ _ _ => some 0 }

/-- A benign environment: the identity utf32-to-keysym table, every keysym
nameable, every keymap compilable, `km0` installed, no seat keyboard. -/
def env0 : ImeEnv :=
  { xkb := fun ch => ch, get_name := fun _ => some "x",
    compile_ok := fun _ => true, installed := km0, seat_mods := none }

/-- A session with serial 1 holding pending text "a" and no pending action. -/
def sessionA : Session :=
  { serial := 1, pending_string := some [0x61], pending_action := ACTION_NONE,
    alloc := ⟨[], 0⟩ }

/-- Whether a seat event installs a synthesized keymap. -/
def is_install : SeatEvent → Bool
  | .installKeymap _ => true
  | _ => false

theorem try_type_keysym_no_install (env : ImeEnv) (ks : Nat) (evs : List SeatEvent)
    (h : try_type_keysym env ks = some evs) : evs.any is_install = false := by
  unfold try_type_keysym at h
  cases hf : find_direct env.installed ks with
  | none => rw [hf] at h; cases h
  | some p =>
    obtain ⟨keycode, mask⟩ := p
    rw [hf] at h
    simp only [Option.some.injEq] at h
    subst h
    simp [List.any_append, List.any_map, is_install, Function.comp]

/-- Claim C1: a commit whose serial differs from the session's serial is a
complete no-op: no seat event is emitted (no keymap install, no device
switch, no key or modifier event) and the session — pending text and pending
action included — is returned unchanged. -/
theorem commit_stale_serial_noop (env : ImeEnv) (s : Session) (serial : Nat)
    (h : serial ≠ s.serial) : ime_handle_commit env s serial = ([], s) := by
  simp [ime_handle_commit, h]

theorem commit_stale_serial_noop_witness :
    (5 : Nat) ≠ sessionA.serial ∧ ime_handle_commit env0 sessionA 5 = ([], sessionA) :=
  ⟨by decide, commit_stale_serial_noop env0 sessionA 5 (by decide)⟩

/-- Claim C2 counterexample: a commit with serial 2 against a session whose
serial is 1 leaves the pending text in place, so pending state is not
cleared "regardless of whether the supplied serial matched". -/
theorem commit_always_clears_counterexample :
    (ime_handle_commit env0 sessionA 2).2.pending_string = some [0x61] ∧
    ¬ (ime_handle_commit env0 sessionA 2).2.pending_string = none := by
  exact ⟨by decide, by decide⟩

/-- Claim C2 (amended): after a commit whose serial matches the session's
serial is processed, the session's pending text and pending action are
cleared; a commit with a non-matching serial leaves them untouched. -/
theorem commit_match_clears_pending (env : ImeEnv) (s : Session) (serial : Nat)
    (h : serial = s.serial) :
    (ime_handle_commit env s serial).2.pending_string = none ∧
    (ime_handle_commit env s serial).2.pending_action = ACTION_NONE := by
  subst h
  simp [ime_handle_commit]

theorem commit_match_clears_pending_witness :
    (1 : Nat) = sessionA.serial ∧
    ((ime_handle_commit env0 sessionA 1).2.pending_string = none ∧
     (ime_handle_commit env0 sessionA 1).2.pending_action = ACTION_NONE) :=
  ⟨rfl, commit_match_clears_pending env0 sessionA 1 rfl⟩

/-- Claim C4 (amended): at a position whose leading byte matches no
recognized 1/2/3/4-byte UTF-8 pattern (and is not the terminator), decoding
yields exactly one replacement scalar U+FFFD and advances the cursor by
exactly one byte; the result is independent of every byte after the leading
one, so nothing past it is read.  A multi-byte unit truncated by the
terminator is not covered: see the counterexample. -/
theorem utf8_decode_invalid_lead (b : Nat) (rest : List Nat)
    (_hb : b ≠ 0) (hsz : utf8_size b = 0) :
    utf8_decode (b :: rest) = (UTF8_INVALID, 1) := by
  dsimp only [utf8_decode]
  simp [List.getD_cons_zero, hsz]

theorem utf8_decode_invalid_lead_witness :
    (0x85 : Nat) ≠ 0 ∧ utf8_size 0x85 = 0 ∧
    utf8_decode [0x85, 7, 8] = (UTF8_INVALID, 1) :=
  ⟨by decide, by decide, utf8_decode_invalid_lead 0x85 [7, 8] (by decide) (by decide)⟩

/-- Claim C4 counterexample: the two-byte lead 0xC3 truncated by the
terminator is consumed as a whole two-byte unit — the decode yields scalar
0xC0, not U+FFFD, and advances the cursor two bytes, past the terminator —
and a truncated three-byte lead reads bytes beyond the terminator: the
decode result depends on what is stored after the terminating 0. -/
theorem utf8_decode_truncated_counterexample :
    ¬ (utf8_decode [0xC3, 0]).2 = 1 ∧
    ¬ (utf8_decode [0xC3, 0]).1 = UTF8_INVALID ∧
    ¬ utf8_decode [0xE0, 0, 0x20] = utf8_decode [0xE0, 0, 0] := by
  exact ⟨by decide, by decide, by decide⟩

/-- Claim C9: while a session is registered in the single-slot registry, a
second create request is answered with the `unavailable` notification and
mutates nothing: the registry still holds the same session (whose state is
untouched) and no seat event is emitted. -/
theorem second_create_rejected (s : Session) :
    manager_handle_create_input_method (some s) =
      (CreateReply.unavailable, some s, []) := rfl

/-- The catalog really has 47 entries. -/
theorem allow_keycodes_len_eq : allow_keycodes_len = 47 := rfl

theorem keycode_from_ch_len_le (xkb : Nat → Nat) (st : AllocState) (ch : Nat)
    (h : st.keys.length ≤ allow_keycodes_len) :
    (keycode_from_ch xkb st ch).2.keys.length ≤ allow_keycodes_len := by
  unfold keycode_from_ch alloc_new
  dsimp only
  split
  · exact h
  · have hA : allow_keycodes_len = 47 := rfl
    cases hl : st.keys.getLast? with
    | some k =>
      by_cases hk : k.keysym = keysym_from_ch xkb ch
      · simp only [hl, hk, if_pos rfl]
        exact h
      · simp only [hl, if_neg hk]
        simp only [List.length_append, List.length_cons, List.length_nil]
        split
        · next hfull => simp only [List.length_tail]; omega
        · omega
    | none =>
      simp only [hl]
      simp only [List.length_append, List.length_cons, List.length_nil]
      split
      · next hfull => simp only [List.length_tail]; omega
      · omega

theorem run_allocs_len_le (xkb : Nat → Nat) (chs : List Nat) (st : AllocState)
    (h : st.keys.length ≤ allow_keycodes_len) :
    (run_allocs xkb st chs).keys.length ≤ allow_keycodes_len := by
  induction chs generalizing st with
  | nil => exact h
  | cons ch chs ih =>
    exact ih (keycode_from_ch xkb st ch).2 (keycode_from_ch_len_le xkb st ch h)

set_option maxRecDepth 4096 in
/-- Claim C5 counterexample (the catalog has 47 keycodes, not 48): the
catalog length is not 48, and allocating 48 distinct fresh symbols starting
from an empty queue — which under a 48-entry catalog would fill the queue to
48 with no eviction — leaves only 47 live entries, the oldest (symbol 1)
already evicted: the front of the queue is symbol 2. -/
theorem allocator_catalog_48_counterexample :
    ¬ allow_keycodes.length = 48 ∧
    (run_allocs (fun ch => ch) ⟨[], 0⟩ ((List.range 48).map (fun i => i + 1))).keys.length = 47 ∧
    ((run_allocs (fun ch => ch) ⟨[], 0⟩ ((List.range 48).map (fun i => i + 1))).keys.map
        (fun k => k.keysym)).head? = some 2 := by
  exact ⟨by decide, by decide, by decide⟩

/-- Claim C5 (amended): the catalog holds 47 allowed keycodes; for every
sequence of allocation requests from a state within capacity, the queue's
length never exceeds 47; and when a new symbol must be allocated (its keysym
exists and differs from the back entry's) while the queue is already at
capacity, exactly the oldest (front) entry is evicted before the new
(keycode, keysym) pair is appended at the back. -/
theorem allocator_catalog_invariant (xkb : Nat → Nat) (st : AllocState) :
    allow_keycodes_len = 47 ∧
    (∀ chs, st.keys.length ≤ allow_keycodes_len →
      (run_allocs xkb st chs).keys.length ≤ allow_keycodes_len) ∧
    (∀ ch, allow_keycodes_len ≤ st.keys.length →
      keysym_from_ch xkb ch ≠ XKB_KEY_NoSymbol →
      st.keys.getLast?.all (fun k => k.keysym != keysym_from_ch xkb ch) = true →
      (keycode_from_ch xkb st ch).2.keys =
        st.keys.tail ++
          [⟨allow_keycodes.getD (st.next_keycode_index % allow_keycodes_len) 0,
            keysym_from_ch xkb ch⟩]) := by
  refine ⟨rfl, fun chs h => run_allocs_len_le xkb chs st h, fun ch h1 h2 h3 => ?_⟩
  unfold keycode_from_ch alloc_new
  dsimp only
  rw [if_neg h2]
  cases hl : st.keys.getLast? with
  | some k =>
    rw [hl] at h3
    simp only [Option.all_some, bne_iff_ne, ne_eq] at h3
    simp only [if_neg h3]
    rw [if_pos h1]
  | none =>
    simp only
    rw [if_pos h1]

/-- A full allocator state: all 47 catalog keycodes assigned, symbol `i + 1`
on the i-th entry, cursor at 47. -/
def stFull : AllocState :=
  ⟨(List.range 47).map (fun i => ⟨allow_keycodes.getD i 0, i + 1⟩), 47⟩

theorem allocator_catalog_invariant_witness :
    (run_allocs (fun ch => ch) stFull [100, 101]).keys.length ≤ allow_keycodes_len ∧
    (keycode_from_ch (fun ch => ch) stFull 100).2.keys =
      stFull.keys.tail ++
        [⟨allow_keycodes.getD (stFull.next_keycode_index % allow_keycodes_len) 0,
          keysym_from_ch (fun ch => ch) 100⟩] :=
  ⟨(allocator_catalog_invariant (fun ch => ch) stFull).2.1 [100, 101] (by decide),
   (allocator_catalog_invariant (fun ch => ch) stFull).2.2 100 (by decide) (by decide)
     (by decide)⟩

theorem gen_symbol_lines_mem (g : Nat → Option String) :
    ∀ (l : List ImeKey) (ls : List KeymapLine),
      gen_symbol_lines g l = some ls →
      ∀ k ∈ l, ∃ nm, g k.keysym = some nm ∧
        KeymapLine.symbolBinding k.keycode nm ∈ ls := by
  intro l
  induction l with
  | nil => intro ls _ k hk; cases hk
  | cons a l ih =>
    intro ls h k hk
    unfold gen_symbol_lines at h
    cases hg : generate_keymap_key g a with
    | none => rw [hg] at h; cases h
    | some line =>
      rw [hg] at h
      cases hrest : gen_symbol_lines g l with
      | none => rw [hrest] at h; cases h
      | some tail =>
        rw [hrest] at h
        simp only [Option.some.injEq] at h
        subst h
        rcases List.mem_cons.mp hk with rfl | hk
        · unfold generate_keymap_key at hg
          cases hn : g k.keysym with
          | none => rw [hn] at hg; cases hg
          | some nm =>
            rw [hn] at hg
            simp only [Option.some.injEq] at hg
            exact ⟨nm, rfl, by rw [← hg]; exact List.mem_cons_self _ _⟩
        · obtain ⟨nm, h1, h2⟩ := ih tail hrest k hk
          exact ⟨nm, h1, List.mem_cons_of_mem _ h2⟩

/-- Claim C6: a successfully synthesized keymap text contains a
keycodes-section binding and a symbols-section binding for every entry of
the allocator queue and for every entry of the fixed action table (all 5
action keys), so a pending action is always executable in the same keymap
synthesized for pending text. -/
theorem generate_keymap_covers_all (g : Nat → Option String)
    (keys : List ImeKey) (lines : List KeymapLine)
    (h : generate_keymap_text g keys = some lines) :
    action_keys.length = 5 ∧
    ∀ k ∈ keys ++ action_keys,
      KeymapLine.keycodeBinding k.keycode ∈ lines ∧
      ∃ nm, g k.keysym = some nm ∧
        KeymapLine.symbolBinding k.keycode nm ∈ lines := by
  unfold generate_keymap_text at h
  cases hs : gen_symbol_lines g (keys ++ action_keys) with
  | none => rw [hs] at h; cases h
  | some sym_lines =>
    rw [hs] at h
    simp only [Option.some.injEq] at h
    subst h
    refine ⟨rfl, fun k hk => ⟨?_, ?_⟩⟩
    · exact List.mem_append_left _ (List.mem_map_of_mem _ hk)
    · obtain ⟨nm, h1, h2⟩ := gen_symbol_lines_mem g _ _ hs k hk
      exact ⟨nm, h1, List.mem_append_right _ h2⟩

/-- A name-lookup table that names every keysym "s". -/
def g0 : Nat → Option String := fun _ => some "s"

/-- The keymap text synthesized by `generate_keymap_text g0 [⟨2, 97⟩]`. -/
def linesW : List KeymapLine :=
  [.keycodeBinding 2, .keycodeBinding 28, .keycodeBinding 14,
   .keycodeBinding 111, .keycodeBinding 105, .keycodeBinding 106,
   .symbolBinding 2 "s", .symbolBinding 28 "s", .symbolBinding 14 "s",
   .symbolBinding 111 "s", .symbolBinding 105 "s", .symbolBinding 106 "s"]

theorem generate_keymap_covers_all_witness :
    action_keys.length = 5 ∧
    (KeymapLine.keycodeBinding 2 ∈ linesW ∧
     ∃ nm, g0 97 = some nm ∧ KeymapLine.symbolBinding 2 nm ∈ linesW) :=
  ⟨(generate_keymap_covers_all g0 [⟨2, 97⟩] linesW (by decide)).1,
   (generate_keymap_covers_all g0 [⟨2, 97⟩] linesW (by decide)).2
     ⟨2, 97⟩ (by decide)⟩

/-- Claim C7: on an accepted direct-type match (keycode, mask) the emitted
sequence is: activate the canonical virtual keyboard device; set the
required modifier mask (the seat's prior modifier state having been
captured); press the required modifier keys in the fixed order left-shift,
left-control, left-alt, skipping those not in the mask; press then release
the target keycode; release the pressed keys in exactly the reverse order;
finally restore the captured modifier state. -/
theorem try_type_keysym_event_order (env : ImeEnv) (ks : Nat)
    (evs : List SeatEvent) (h : try_type_keysym env ks = some evs) :
    ∃ keycode mask,
      find_direct env.installed ks = some (keycode, mask) ∧
      evs =
        [SeatEvent.setKeyboardVirtual, SeatEvent.notifyModifiers ⟨mask, 0, 0, 0⟩] ++
        (((if mask &&& WLR_MODIFIER_SHIFT ≠ 0 then [KEY_LEFTSHIFT] else []) ++
          (if mask &&& WLR_MODIFIER_CTRL ≠ 0 then [KEY_LEFTCTRL] else []) ++
          (if mask &&& WLR_MODIFIER_ALT ≠ 0 then [KEY_LEFTALT] else [])) ++
          [keycode - 8]).map SeatEvent.keyPress ++
        ((((if mask &&& WLR_MODIFIER_SHIFT ≠ 0 then [KEY_LEFTSHIFT] else []) ++
           (if mask &&& WLR_MODIFIER_CTRL ≠ 0 then [KEY_LEFTCTRL] else []) ++
           (if mask &&& WLR_MODIFIER_ALT ≠ 0 then [KEY_LEFTALT] else [])) ++
          [keycode - 8]).reverse).map SeatEvent.keyRelease ++
        [SeatEvent.notifyModifiers (env.seat_mods.getD ⟨0, 0, 0, 0⟩)] := by
  unfold try_type_keysym at h
  cases hf : find_direct env.installed ks with
  | none => rw [hf] at h; cases h
  | some p =>
    obtain ⟨keycode, mask⟩ := p
    rw [hf] at h
    simp only [Option.some.injEq] at h
    subst h
    exact ⟨keycode, mask, rfl, by simp [modifier_keycodes]⟩

/-- An installed keymap whose sole key (keycode 8) produces keysym 0x41 at a
level requiring shift and alt. -/
def km1 : InstalledKeymap :=
  { min_keycode := 8, max_keycode := 8,
    num_layouts := fun _ => 1, num_levels := fun _ _ => 1,
    syms := fun _ _ _ => [0x41],
    get_mods := fun _ _ _ => some 9 }

/-- An environment with `km1` installed and a nontrivial seat modifier
state to be captured and restored. -/
def env1 : ImeEnv :=
  { xkb := fun ch => ch, get_name := fun _ => some "x",
    compile_ok := fun _ => true, installed := km1,
    seat_mods := some ⟨2, 0, 0, 1⟩ }

/-- The events `try_type_keysym env1 0x41` emits. -/
def evs1 : List SeatEvent :=
  [.setKeyboardVirtual, .notifyModifiers ⟨9, 0, 0, 0⟩,
   .keyPress KEY_LEFTSHIFT, .keyPress KEY_LEFTALT, .keyPress 0,
   .keyRelease 0, .keyRelease KEY_LEFTALT, .keyRelease KEY_LEFTSHIFT,
   .notifyModifiers ⟨2, 0, 0, 1⟩]

theorem try_type_keysym_event_order_witness :
    ∃ keycode mask,
      find_direct env1.installed 0x41 = some (keycode, mask) ∧
      evs1 =
        [SeatEvent.setKeyboardVirtual, SeatEvent.notifyModifiers ⟨mask, 0, 0, 0⟩] ++
        (((if mask &&& WLR_MODIFIER_SHIFT ≠ 0 then [KEY_LEFTSHIFT] else []) ++
          (if mask &&& WLR_MODIFIER_CTRL ≠ 0 then [KEY_LEFTCTRL] else []) ++
          (if mask &&& WLR_MODIFIER_ALT ≠ 0 then [KEY_LEFTALT] else [])) ++
          [keycode - 8]).map SeatEvent.keyPress ++
        ((((if mask &&& WLR_MODIFIER_SHIFT ≠ 0 then [KEY_LEFTSHIFT] else []) ++
           (if mask &&& WLR_MODIFIER_CTRL ≠ 0 then [KEY_LEFTCTRL] else []) ++
           (if mask &&& WLR_MODIFIER_ALT ≠ 0 then [KEY_LEFTALT] else [])) ++
          [keycode - 8]).reverse).map SeatEvent.keyRelease ++
        [SeatEvent.notifyModifiers (env1.seat_mods.getD ⟨0, 0, 0, 0⟩)] :=
  try_type_keysym_event_order env1 0x41 evs1 (by decide)

/-- Claim C8: when keymap synthesis fails for a commit — some symbol's name
lookup fails (so the text generation aborts) or the compiler rejects the
assembled text — the whole type-text or perform-action operation is
abandoned with no seat mutation at all: no keymap install, no switch of the
seat's active keyboard, and no key or modifier event. -/
theorem synthesis_failure_aborts (env : ImeEnv) (st : AllocState)
    (text : List Nat) (action : Nat) :
    ((type_text_direct env st text = none) →
     (∀ lines, generate_keymap_text env.get_name
        (collect_keycodes env.xkb st text).2.keys = some lines →
      env.compile_ok lines = false) →
     (type_text env st text).1 = []) ∧
    ((∀ key, actions_lookup action = some key →
        try_type_keysym env key.keysym = none) →
     (∀ lines, generate_keymap_text env.get_name st.keys = some lines →
      env.compile_ok lines = false) →
     (perform_action env st action).1 = []) := by
  constructor
  · intro hd hg
    unfold type_text
    rw [hd]
    dsimp only
    cases hgen : generate_keymap_text env.get_name
        (collect_keycodes env.xkb st text).2.keys with
    | none => rfl
    | some lines => simp [hg lines hgen]
  · intro h1 h2
    unfold perform_action
    cases ha : actions_lookup action with
    | none => rfl
    | some key =>
      dsimp only
      rw [h1 key ha]
      cases hgen : generate_keymap_text env.get_name st.keys with
      | none => rfl
      | some lines => simp [h2 lines hgen]

/-- An installed keymap with an empty keycode range: every direct-type
search fails. -/
def km2 : InstalledKeymap :=
  { min_keycode := 8, max_keycode := 7,
    num_layouts := fun _ => 0, num_levels := fun _ _ => 0,
    syms := fun _ _ _ => [], get_mods := fun _ _ _ => none }

/-- An environment in which every keysym-name lookup fails, so every keymap
synthesis fails. -/
def env2 : ImeEnv :=
  { xkb := fun ch => ch, get_name := fun _ => none,
    compile_ok := fun _ => true, installed := km2, seat_mods := none }

theorem synthesis_failure_aborts_witness :
    (type_text env2 ⟨[], 0⟩ [0x61]).1 = [] ∧
    (perform_action env2 ⟨[], 0⟩ ACTION_SUBMIT).1 = [] :=
  ⟨(synthesis_failure_aborts env2 ⟨[], 0⟩ [0x61] ACTION_SUBMIT).1
      (by decide)
      (by
        intro lines h
        rw [show generate_keymap_text env2.get_name
            (collect_keycodes env2.xkb ⟨[], 0⟩ [0x61]).2.keys = none from rfl] at h
        cases h),
   (synthesis_failure_aborts env2 ⟨[], 0⟩ [0x61] ACTION_SUBMIT).2
      (by
        intro key h
        rw [show actions_lookup ACTION_SUBMIT =
            some (⟨28, 0xFF0D⟩ : ImeKey) from rfl] at h
        cases h
        rfl)
      (by
        intro lines h
        rw [show generate_keymap_text env2.get_name
            (⟨[], 0⟩ : AllocState).keys = none from rfl] at h
        cases h)⟩

/-- Claim C3 counterexample: the text "é" (bytes 0xC3 0xA9, one scalar value
0xE9) with an empty allocator queue, in the environment `env0` where
direct-typing the symbol would succeed; yet `type_text` does not direct-type
and stop — it allocates a keycode and installs a synthesized keymap. -/
theorem type_text_single_scalar_counterexample :
    decode_string [0xC3, 0xA9] = [0xE9] ∧
    (try_type_keysym env0 (keysym_from_ch env0.xkb 0xE9)).isSome = true ∧
    (type_text env0 ⟨[], 0⟩ [0xC3, 0xA9]).1.any is_install = true ∧
    ¬ (type_text env0 ⟨[], 0⟩ [0xC3, 0xA9]).2 = ⟨[], 0⟩ := by
  exact ⟨by decide, by decide, by decide, by decide⟩

/-- Claim C3 (amended): for a committed pending text consisting of exactly
one recognized single-byte (ASCII) unit followed by the terminator, when the
allocator queue is empty and the byte resolves to a keysym, the type-text
algorithm attempts direct-typing that symbol first; on direct-type success
it stops there: the trace is exactly the direct-type events — which install
no keymap — and the allocator state is untouched, so no keycode is
allocated.  (A single scalar value encoded in more than one byte does not
take this path: see the counterexample.) -/
theorem type_text_single_byte_direct (env : ImeEnv) (st : AllocState)
    (text : List Nat) (evs : List SeatEvent)
    (h1 : utf8_size (text.getD 0 0) = 1) (h2 : text.getD 1 0 = 0)
    (h3 : st.keys = [])
    (h4 : keysym_from_ch env.xkb (text.getD 0 0) ≠ XKB_KEY_NoSymbol)
    (h5 : try_type_keysym env (keysym_from_ch env.xkb (text.getD 0 0)) = some evs) :
    type_text env st text = (evs, st) ∧ evs.any is_install = false := by
  have hd : type_text_direct env st text = some evs := by
    unfold type_text_direct
    rw [if_pos ⟨h1, h2, h3⟩]
    dsimp only
    rw [if_pos h4]
    exact h5
  refine ⟨?_, try_type_keysym_no_install env _ evs h5⟩
  unfold type_text
  rw [hd]

theorem type_text_single_byte_direct_witness :
    type_text env0 ⟨[], 0⟩ [0x61] =
      ([SeatEvent.setKeyboardVirtual, SeatEvent.notifyModifiers ⟨0, 0, 0, 0⟩,
        SeatEvent.keyPress 0, SeatEvent.keyRelease 0,
        SeatEvent.notifyModifiers ⟨0, 0, 0, 0⟩], ⟨[], 0⟩) ∧
    ([SeatEvent.setKeyboardVirtual, SeatEvent.notifyModifiers ⟨0, 0, 0, 0⟩,
      SeatEvent.keyPress 0, SeatEvent.keyRelease 0,
      SeatEvent.notifyModifiers ⟨0, 0, 0, 0⟩] : List SeatEvent).any is_install = false :=
  type_text_single_byte_direct env0 ⟨[], 0⟩ [0x61] _
    (by decide) (by decide) (by decide) (by decide) (by decide)

theorem keycode_from_ch_nosym (xkb : Nat → Nat) (st : AllocState) (ch : Nat)
    (h : keysym_from_ch xkb ch = XKB_KEY_NoSymbol) :
    keycode_from_ch xkb st ch = (XKB_KEYCODE_INVALID, st) := by
  unfold keycode_from_ch
  dsimp only
  rw [if_pos h]

theorem collect_keycodes_go_all_invalid (xkb : Nat → Nat) :
    ∀ (fuel : Nat) (text : List Nat) (st : AllocState),
      (∀ ch ∈ decode_string_go fuel text, keysym_from_ch xkb ch = XKB_KEY_NoSymbol) →
      collect_keycodes_go xkb fuel st text = ([], st) := by
  intro fuel
  induction fuel with
  | zero => intro text st _; rfl
  | succ fuel ih =>
    intro text st h
    cases text with
    | nil => rfl
    | cons b rest =>
      by_cases hb : b = 0
      · simp [collect_keycodes_go, hb]
      · have hdec : decode_string_go (fuel + 1) (b :: rest) =
            (utf8_decode (b :: rest)).1 ::
              decode_string_go fuel ((b :: rest).drop (utf8_decode (b :: rest)).2) := by
          simp [decode_string_go, hb]
        have hhead : keysym_from_ch xkb (utf8_decode (b :: rest)).1 = XKB_KEY_NoSymbol := by
          apply h
          rw [hdec]
          exact List.mem_cons_self _ _
        have hstep := keycode_from_ch_nosym xkb st (utf8_decode (b :: rest)).1 hhead
        have htail : collect_keycodes_go xkb fuel st
            ((b :: rest).drop (utf8_decode (b :: rest)).2) = ([], st) := by
          apply ih
          intro ch hch
          apply h
          rw [hdec]
          exact List.mem_cons_of_mem _ hch
        simp [collect_keycodes_go, hb, hstep, htail]

theorem type_text_direct_none_of_invalid (env : ImeEnv) (st : AllocState)
    (text : List Nat)
    (hbytes : ∀ b ∈ text, b < 256)
    (h : ∀ ch ∈ decode_string text, keysym_from_ch env.xkb ch = XKB_KEY_NoSymbol) :
    type_text_direct env st text = none := by
  unfold type_text_direct
  by_cases hc : utf8_size (text.getD 0 0) = 1 ∧ text.getD 1 0 = 0 ∧ st.keys = []
  · rw [if_pos hc]
    obtain ⟨h1, _, _⟩ := hc
    cases text with
    | nil => exact absurd h1 (by decide)
    | cons b rest =>
      rw [List.getD_cons_zero] at h1
      have hb0 : b ≠ 0 := by
        intro hb
        rw [hb] at h1
        exact absurd h1 (by decide)
      have hblt : b < 256 := hbytes b (List.mem_cons_self _ _)
      have hb128 : b &&& 0x80 = 0 := by
        by_contra hc2
        have hne : utf8_size b ≠ 1 := by
          unfold utf8_size
          rw [if_neg hb0, if_neg hc2]
          split_ifs <;> decide
        exact hne h1
      have hbit : b.testBit 7 = false := by
        have h2p := Nat.and_two_pow b 7
        rw [show (2 : Nat) ^ 7 = 0x80 from rfl, hb128] at h2p
        cases hbv : b.testBit 7 with
        | false => rfl
        | true => rw [hbv] at h2p; simp at h2p
      have hdiv : b / 128 % 2 = 0 := by
        have ht : b.testBit 7 = decide (b / 2 ^ 7 % 2 = 1) :=
          Nat.testBit_to_div_mod
        rw [hbit] at ht
        have hnd := of_decide_eq_false ht.symm
        rw [show (2 : Nat) ^ 7 = 128 from rfl] at hnd
        omega
      have hlt : b < 128 := by omega
      have hand : b &&& 0x7F = b := by
        have hm := Nat.and_pow_two_sub_one_eq_mod b 7
        rw [show (2 : Nat) ^ 7 - 1 = 0x7F from rfl] at hm
        rw [hm]
        omega
      have hdecv : utf8_decode (b :: rest) = (b, 1) := by
        unfold utf8_decode
        dsimp only
        rw [List.getD_cons_zero, h1]
        simp [utf8_mask, hand]
      have hmem : b ∈ decode_string (b :: rest) := by
        unfold decode_string
        rw [List.length_cons]
        simp only [decode_string_go, if_neg hb0]
        rw [hdecv]
        exact List.mem_cons_self _ _
      have hks := h b hmem
      rw [List.getD_cons_zero]
      simp [hks]
  · rw [if_neg hc]

/-- Claim C10: for a commit whose pending text produces no valid keycode —
the string is empty, or every decoded scalar resolves to no keysym — and an
empty allocator queue, when keymap synthesis and compilation succeed,
`type_text` still installs the synthesized (action-keys-only) keymap on the
IME's emulated device, switches the seat's active keyboard to that device,
and arms the 100 ms idle-reset timer, while emitting zero key press/release
events; the allocator state is unchanged. -/
theorem type_text_no_keycodes_still_switches (env : ImeEnv) (st : AllocState)
    (text : List Nat) (lines : List KeymapLine)
    (hbytes : ∀ b ∈ text, b < 256)
    (hkeys : st.keys = [])
    (hinv : ∀ ch ∈ decode_string text, keysym_from_ch env.xkb ch = XKB_KEY_NoSymbol)
    (hgen : generate_keymap_text env.get_name [] = some lines)
    (hcomp : env.compile_ok lines = true) :
    type_text env st text =
      ([SeatEvent.installKeymap lines, SeatEvent.setKeyboardIme,
        SeatEvent.armImeResetTimer 100], st) := by
  have hd := type_text_direct_none_of_invalid env st text hbytes hinv
  have hcol : collect_keycodes env.xkb st text = ([], st) :=
    collect_keycodes_go_all_invalid env.xkb text.length text st hinv
  unfold type_text
  rw [hd]
  dsimp only
  rw [hcol]
  dsimp only
  rw [hkeys, hgen]
  simp [hcomp]

/-- An environment in which no codepoint has a keysym, yet keymap synthesis
and compilation succeed. -/
def env3 : ImeEnv :=
  { xkb := fun _ => 0, get_name := fun _ => some "n",
    compile_ok := fun _ => true, installed := km2, seat_mods := none }

/-- The action-keys-only keymap text synthesized under `env3`. -/
def linesAct : List KeymapLine :=
  [.keycodeBinding 28, .keycodeBinding 14, .keycodeBinding 111,
   .keycodeBinding 105, .keycodeBinding 106,
   .symbolBinding 28 "n", .symbolBinding 14 "n", .symbolBinding 111 "n",
   .symbolBinding 105 "n", .symbolBinding 106 "n"]

theorem type_text_no_keycodes_still_switches_witness :
    type_text env3 ⟨[], 0⟩ [0x61] =
      ([SeatEvent.installKeymap linesAct, SeatEvent.setKeyboardIme,
        SeatEvent.armImeResetTimer 100], (⟨[], 0⟩ : AllocState)) :=
  type_text_no_keycodes_still_switches env3 ⟨[], 0⟩ [0x61] linesAct
    (by decide) rfl (by decide) (by decide) (by decide)

end Ime
